import Mathlib

/-!
Shallow embedding of the lasso audit service (repository `algonzalvez/lasso`):
the `/audit` request handler and chunk scheduler in `src/app.js`, the batch
audit orchestrator `LighthouseAudit` in `src/lighthouse-audit.js`, the remote
variant `PageSpeedInsightsAudit` in `src/pagespeedinsights-audit.js`, and the
storage writer `writeResultStream` in `src/utils/bq.js`.

JavaScript numbers are modelled as rationals, JavaScript objects used as
records as functions from field names to optional values, promises and thrown
exceptions as `Except String`.  External collaborators (the lighthouse engine,
the PSI endpoint, the BigQuery insert, the wall clock) are parameters of the
embedded functions.
-/

namespace Lasso

/-- A JavaScript value as far as the handler inspects request fields:
a string, a boolean, or anything non-string non-boolean (`undefined`,
a number, an object ...), which the embedded code only ever tests for
truthiness or for its `typeof`. -/
inductive JSVal where
  | str (s : String)
  | boolV (b : Bool)
  | undef
deriving DecidableEq

/-- JavaScript truthiness for the fragment of values modelled. -/
def JSVal.truthy : JSVal → Bool
  | .str s => !(s == "")
  | .boolV b => b
  | .undef => false

/-- A value stored in a formatted record: numbers, strings, booleans, the
three BigQuery-wrapped date types, or `undefined`. -/
inductive BQVal where
  | num (q : ℚ)
  | str (s : String)
  | boolB (b : Bool)
  | bqDate (s : String)
  | bqDatetime (s : String)
  | bqTime (s : String)
  | undef
deriving DecidableEq

/-- A JavaScript object used as a record: field name to optional value
(`none` = the field is absent / reads as `undefined`). -/
def Record : Type := String → Option BQVal

/-- The empty object literal. -/
def Record.empty : Record := fun _ => none

/-- JavaScript property assignment `r[k] = v`. -/
def Record.set (r : Record) (k : String) (v : BQVal) : Record :=
  fun q => if q = k then some v else r q

theorem Record.set_same (r : Record) (k : String) (v : BQVal) :
    (r.set k v) k = some v := by
  simp [Record.set]

theorem Record.set_ne (r : Record) (k : String) (v : BQVal) (q : String) (h : q ≠ k) :
    (r.set k v) q = r q := by
  simp [Record.set, h]

/-- One audit item of a raw lighthouse result (`first-contentful-paint`,
...): a numeric value and a sub-score. -/
structure AuditItem where
  numericValue : ℚ
  score : ℚ
deriving DecidableEq

/-- The raw audit-items structure (`lhr.audits`) after the runner tagged it
with the source URL (`audits[url] = url`, lighthouse-audit.js:94). -/
structure RawAudit where
  items : List (String × AuditItem)
  url : String
deriving DecidableEq

/-- The `{metrics, performance}` shape both audit runner variants normalize
to on success. -/
structure AuditOutcome where
  metrics : RawAudit
  performance : ℚ
deriving DecidableEq

/-- The message of the TypeError raised by reading a property of
`undefined`. -/
def typeErrorReading (field : String) : String :=
  "Cannot read properties of undefined (reading " ++ field ++ ")"

/-- The field mapping `auditResultsMapping`: ordered
(output field, raw item key) pairs, the entries of a JavaScript object. -/
abbrev FieldMapping : Type := List (String × String)

/-- The body of the `reduce` callback in `getBQFormatResults`
(lighthouse-audit.js:116-120 and pagespeedinsights-audit.js:109-113):
`res[keyVal[0]] = audit[keyVal[1]] ? audit[keyVal[1]].numericValue : 0` and
the same for the `_score` field from the sub-score. -/
def mappingStep (audit : RawAudit) (res : Record) (kv : String × String) : Record :=
  let item := audit.items.lookup kv.2
  (res.set kv.1 (BQVal.num ((item.map AuditItem.numericValue).getD 0))).set
    (kv.1 ++ "_score") (BQVal.num ((item.map AuditItem.score).getD 0))

/-- The `Object.entries(this.auditFieldMapping).reduce(...)` fold shared by
both formatters. -/
def mappingFold (mapping : FieldMapping) (audit : RawAudit) : Record :=
  mapping.foldl (mappingStep audit) Record.empty

/-- Formats one defined raw audit result as in
`LighthouseAudit.getBQFormatResults` (lighthouse-audit.js:113-129): the field
mapping fold, then `performanceScore` (the `it`-th accumulated score, read
with JavaScript indexing, so `undefined` past the end), the date stamps, the
source URL read off the tagged raw result, and the blocked request patterns
joined with commas. -/
def formatOneAudit (mapping : FieldMapping) (audit : RawAudit) (perfScore : Option ℚ)
    (dateS datetimeS timeS : String) (blocked : List String) : Record :=
  let base := mappingFold mapping audit
  let perfV := match perfScore with
    | some q => BQVal.num q
    | none => BQVal.undef
  (((((base.set "performanceScore" perfV).set
      "date" (BQVal.bqDate dateS)).set
      "datetime" (BQVal.bqDatetime datetimeS)).set
      "time" (BQVal.bqTime timeS)).set
      "url" (BQVal.str audit.url)).set
      "blockedRequests" (BQVal.str (String.intercalate "," blocked))

/-- Formats one defined raw audit result as in
`PageSpeedInsightsAudit.getBQFormatResults`
(pagespeedinsights-audit.js:106-121): identical to the browser variant except
that no `blockedRequests` field is stamped. -/
def formatOnePSIAudit (mapping : FieldMapping) (audit : RawAudit) (perfScore : Option ℚ)
    (dateS datetimeS timeS : String) : Record :=
  let base := mappingFold mapping audit
  let perfV := match perfScore with
    | some q => BQVal.num q
    | none => BQVal.undef
  ((((base.set "performanceScore" perfV).set
      "date" (BQVal.bqDate dateS)).set
      "datetime" (BQVal.bqDatetime datetimeS)).set
      "time" (BQVal.bqTime timeS)).set
      "url" (BQVal.str audit.url)

/-- The performance category object, exposing a score
(`categories.performance.score`). -/
structure PerfCategory where
  score : ℚ
deriving DecidableEq

/-- The categories object of a lighthouse result; `performance` may be
absent. -/
structure LHCategories where
  performance : Option PerfCategory
deriving DecidableEq

/-- The `lhr` / `lighthouseResult` envelope: the audit-items structure (an
object keyed by audit-item identifiers, possibly `undefined`/`null`, both
modelled as `none`) and the categories object (possibly absent). -/
structure LHR where
  audits : Option (List (String × AuditItem))
  categories : Option LHCategories
deriving DecidableEq

/-- The object the `lighthouse(...)` engine call resolves with; `lhr` may be
absent on a malformed response. -/
structure LHMetrics where
  lhr : Option LHR
deriving DecidableEq

/-- Embeds `LighthouseAudit.performAudit` (lighthouse-audit.js:80-100).  The
`lighthouse(url, options, config)` engine call is the `engine` parameter:
`.error e` is a rejection with message `e`, `.ok m` a resolved response.
Inside the `then` callback, reading `metrics.lhr.audits` throws when `lhr` is
absent, and `metrics.lhr.categories.performance.score` throws when
`categories` or `performance` is absent; every failure is re-wrapped by the
`catch` as `LH Audit error: <message>`.  When the audits structure is
`undefined`/`null` (with the score still reachable) the callback falls
through and the promise resolves with `undefined` (`.ok none`); otherwise the
audits are tagged with the source URL and `{metrics, performance}` is
returned. -/
def LighthouseAudit.performAudit (url : String) (engine : Except String LHMetrics) :
    Except String (Option AuditOutcome) :=
  match engine with
  | .error e => .error ("LH Audit error: " ++ e)
  | .ok m =>
    match m.lhr with
    | none => .error ("LH Audit error: " ++ typeErrorReading "audits")
    | some lhr =>
      match lhr.categories with
      | none => .error ("LH Audit error: " ++ typeErrorReading "performance")
      | some cats =>
        match cats.performance with
        | none => .error ("LH Audit error: " ++ typeErrorReading "score")
        | some perf =>
          match lhr.audits with
          | some audits => .ok (some ⟨⟨audits, url⟩, perf.score⟩)
          | none => .ok none

/-- The `data` wrapper of a PSI response (`metrics.data`). -/
structure PSIData where
  lighthouseResult : Option LHR
deriving DecidableEq

/-- The object the `psi(url, options)` call resolves with. -/
structure PSIMetrics where
  data : Option PSIData
deriving DecidableEq

/-- The strategy selection of `PageSpeedInsightsAudit.performAudit`
(pagespeedinsights-audit.js:69). -/
def PageSpeedInsightsAudit.strategy (mode : String) : String :=
  if mode = "desktop" then mode else "mobile"

/-- Embeds `PageSpeedInsightsAudit.performAudit`
(pagespeedinsights-audit.js:67-93): same shape as the browser variant, with
the audits and score read from `metrics.data.lighthouseResult` and failures
wrapped as `PSI Audit error: <message>`. -/
def PageSpeedInsightsAudit.performAudit (url : String) (engine : Except String PSIMetrics) :
    Except String (Option AuditOutcome) :=
  match engine with
  | .error e => .error ("PSI Audit error: " ++ e)
  | .ok m =>
    match m.data with
    | none => .error ("PSI Audit error: " ++ typeErrorReading "lighthouseResult")
    | some d =>
      match d.lighthouseResult with
      | none => .error ("PSI Audit error: " ++ typeErrorReading "audits")
      | some lhr =>
        match lhr.categories with
        | none => .error ("PSI Audit error: " ++ typeErrorReading "performance")
        | some cats =>
          match cats.performance with
          | none => .error ("PSI Audit error: " ++ typeErrorReading "score")
          | some perf =>
            match lhr.audits with
            | some audits => .ok (some ⟨⟨audits, url⟩, perf.score⟩)
            | none => .ok none

/-- The instance state of the `LighthouseAudit` class
(lighthouse-audit.js:34-41): the fields set by the constructor.  The audit
config is opaque to the core and kept as a label. -/
structure LighthouseAudit where
  urls : List String
  blockedRequestPatterns : List String
  auditConfig : String
  auditResults : List (Option RawAudit)
  auditFieldMapping : FieldMapping
  performanceScore : List ℚ
deriving DecidableEq

/-- The constructor `new LighthouseAudit(urls, blockedRequestPatterns,
auditConfig, auditFieldMapping)`: the two accumulation arrays start empty. -/
def LighthouseAudit.new (urls : List String) (blockedRequestPatterns : List String)
    (auditConfig : String) (auditFieldMapping : FieldMapping) : LighthouseAudit :=
  ⟨urls, blockedRequestPatterns, auditConfig, [], auditFieldMapping, []⟩

/-- The `for` loop of `LighthouseAudit.run` (lighthouse-audit.js:57-68) over
the remaining URLs.  The per-URL audit (page creation plus `performAudit`) is
the `audit` parameter, returning the promise outcome of `performAudit`.  On a
successful outcome the score and the tagged metrics are pushed onto the
instance arrays; when `performAudit` resolved `undefined` the read
`results.performance` throws a TypeError; any caught error is re-thrown as
`<message> on <url>`, aborting the loop. -/
def LighthouseAudit.runLoop (audit : String → Except String (Option AuditOutcome)) :
    LighthouseAudit → List String → Except String LighthouseAudit
  | s, [] => .ok s
  | s, url :: rest =>
    match audit url with
    | .error e => .error (e ++ " on " ++ url)
    | .ok none => .error (typeErrorReading "performance" ++ " on " ++ url)
    | .ok (some r) =>
      LighthouseAudit.runLoop audit
        { s with performanceScore := s.performanceScore ++ [r.performance],
                 auditResults := s.auditResults ++ [some r.metrics] } rest

/-- Embeds `LighthouseAudit.run` (lighthouse-audit.js:48-71): iterates the
instance's URL list sequentially, accumulating into the instance state, which
it returns on success. -/
def LighthouseAudit.run (audit : String → Except String (Option AuditOutcome))
    (s : LighthouseAudit) : Except String LighthouseAudit :=
  LighthouseAudit.runLoop audit s s.urls

/-- The stateful `map` of `LighthouseAudit.getBQFormatResults`
(lighthouse-audit.js:112-131): `it` counts the defined raw results formatted
so far and indexes `performanceScore`; an `undefined` raw result makes the
callback return `undefined` (`Array.map` still emits an entry for it). -/
def LighthouseAudit.formatLoop (s : LighthouseAudit) (dateS datetimeS timeS : String) :
    List (Option RawAudit) → Nat → List (Option Record)
  | [], _ => []
  | none :: rest, it => none :: LighthouseAudit.formatLoop s dateS datetimeS timeS rest it
  | some a :: rest, it =>
    some (formatOneAudit s.auditFieldMapping a s.performanceScore[it]?
        dateS datetimeS timeS s.blockedRequestPatterns)
      :: LighthouseAudit.formatLoop s dateS datetimeS timeS rest (it + 1)

/-- Embeds `LighthouseAudit.getBQFormatResults` (lighthouse-audit.js:108-132).
The wall-clock derived date, datetime and time strings are parameters. -/
def LighthouseAudit.getBQFormatResults (s : LighthouseAudit)
    (dateS datetimeS timeS : String) : List (Option Record) :=
  LighthouseAudit.formatLoop s dateS datetimeS timeS s.auditResults 0

/-- The `/audit` request body as read by `performAudit` (app.js:53-59):
`urls` and `blockedRequests` are produced by the (excluded) validation layer,
`mode`, `storeData` and the misspelled `storeDate` are read as arbitrary
JavaScript values. -/
structure AuditPayload where
  urls : List String
  blockedRequests : Option (List String)
  mode : JSVal
  storeData : JSVal
  storeDate : JSVal
deriving DecidableEq

/-- Embeds app.js:57,
`const mode = typeof payload.mode !== 'string' ? payload.mode : 'mobile'`:
a non-string `payload.mode` is kept as is, a string one is replaced by the
literal `mobile`. -/
def effectiveMode (payload : AuditPayload) : JSVal :=
  match payload.mode with
  | .str _ => JSVal.str "mobile"
  | v => v

/-- Embeds app.js:59, `const storeData =
typeof payload.storeData !== 'boolean' ? payload.storeDate : false`:
a boolean `payload.storeData` yields the literal `false`, anything else
yields the misspelled `payload.storeDate` field. -/
def storeDataFlag (payload : AuditPayload) : JSVal :=
  match payload.storeData with
  | .boolV _ => JSVal.boolV false
  | _ => payload.storeDate

/-- The audit config selection of `performLightouseAudit` (app.js:104-110),
with the three required config objects kept as labels; the comparisons are
JavaScript `==` against string literals, false for every non-string mode. -/
def auditConfigFor (mode : JSVal) : String :=
  if mode = JSVal.str "desktop" then "desktop-config"
  else if mode = JSVal.str "mobile" then "lr-mobile-config"
  else "perfConfig.auditConfig"

/-- A JavaScript value stored into a record field (`result[mode] = mode`,
app.js:119). -/
def JSVal.toBQ : JSVal → BQVal
  | .str s => BQVal.str s
  | .boolV b => BQVal.boolB b
  | .undef => BQVal.undef

/-- Embeds `performLightouseAudit` (app.js:103-125): selects the audit
config from the mode, constructs a fresh `LighthouseAudit` instance (the
default parameter turns an absent `blockedRequestPatterns` into `[]`), runs
it, formats the accumulated results and tags each record with the mode.  The
browser engine is the `audit` parameter, invoked with the selected config and
the URL. -/
def performLightouseAudit
    (audit : String → String → Except String (Option AuditOutcome))
    (auditResultsMapping : FieldMapping) (dateS datetimeS timeS : String)
    (urls : List String) (blockedRequestPatterns : Option (List String))
    (mode : JSVal) : Except String (List (Option Record)) :=
  let auditConfig := auditConfigFor mode
  let lhAudit := LighthouseAudit.new urls (blockedRequestPatterns.getD [])
    auditConfig auditResultsMapping
  match LighthouseAudit.run (audit auditConfig) lhAudit with
  | .error e => .error e
  | .ok s =>
    .ok ((LighthouseAudit.getBQFormatResults s dateS datetimeS timeS).map
      (fun r => r.map (fun result => result.set "mode" mode.toBQ)))

/-- The `switch` of `performAudit` (app.js:64-79) computing `results`: when
the effective mode is the string `all`, one run per concrete mode (desktop
then mobile) concatenated; every other effective mode value — string or not —
falls through to a single run with that value. -/
def performAuditResults
    (audit : String → String → Except String (Option AuditOutcome))
    (auditResultsMapping : FieldMapping) (dateS datetimeS timeS : String)
    (payload : AuditPayload) : Except String (List (Option Record)) :=
  if effectiveMode payload = JSVal.str "all" then
    match performLightouseAudit audit auditResultsMapping dateS datetimeS timeS
        payload.urls payload.blockedRequests (JSVal.str "desktop") with
    | .error e => .error e
    | .ok desktopResults =>
      match performLightouseAudit audit auditResultsMapping dateS datetimeS timeS
          payload.urls payload.blockedRequests (JSVal.str "mobile") with
      | .error e => .error e
      | .ok mobileResults => .ok (desktopResults ++ mobileResults)
  else
    performLightouseAudit audit auditResultsMapping dateS datetimeS timeS
      payload.urls payload.blockedRequests (effectiveMode payload)

/-- The column allow-list of `writeResultStream` (bq.js:55-79). -/
def allowedFields : List String :=
  ["firstContentfulPaint", "largestContentfulPaint", "firstMeaningfulPaint",
   "speedIndex", "estimatedInputLatency", "totalBlockingTime",
   "maxPotentialFID", "cumulativeLayoutShift", "firstCpuIdle", "interactive",
   "serverResponseTime", "performanceScore", "date", "time", "formattedAudit",
   "url", "mode", "firstContentfulPaint_score", "largestContentfulPaint_score",
   "firstMeaningfulPaint_score", "speedIndex_score",
   "cumulativeLayoutShift_score", "totalBlockingTime_score",
   "interactive_score", "serverResponseTime_score"]

/-- The per-row body of the `rows.map` in `writeResultStream` (bq.js:81-87):
only allow-listed columns are forwarded, everything else is dropped. -/
def prepareRow (row : Record) : Record :=
  fun k => if allowedFields.contains k then row k else none

/-- The `rows.map` of `writeResultStream`: reading `row[field]` off an
`undefined` row throws a TypeError, aborting the whole map. -/
def prepareRows : List (Option Record) → Option (List Record)
  | [] => some []
  | none :: _ => none
  | some r :: rest => (prepareRows rest).map (fun l => prepareRow r :: l)

/-- Embeds `writeResultStream` (bq.js:52-100).  The BigQuery `insert` call is
the `insert` parameter; its promise outcome is consumed by the attached
`then`/`catch`, which only log — an insert failure never rejects the function
itself.  The only way the function can throw is the TypeError of the row
preparation. -/
def writeResultStream (insert : List Record → Except String Unit)
    (rows : List (Option Record)) : Except String Unit :=
  match prepareRows rows with
  | none => .error (typeErrorReading "firstContentfulPaint")
  | some preparedRows =>
    match insert preparedRows with
    | .ok _ => .ok ()
    | .error _ => .ok ()

/-- The body of an HTTP response of the `/audit` handler. -/
inductive RespBody where
  | records (rs : List (Option Record))
  | errorObj (code : Nat) (message : String)

/-- An HTTP response: status and JSON body. -/
structure HttpResp where
  status : Nat
  body : RespBody

/-- Embeds the `performAudit` request handler (app.js:53-95): computes the
results, writes them to storage when the (misread) store flag is truthy, and
answers 200 with the JSON records, or 500 with `{error: {code, message}}`
when anything inside the `try` threw. -/
def performAudit (audit : String → String → Except String (Option AuditOutcome))
    (auditResultsMapping : FieldMapping) (dateS datetimeS timeS : String)
    (insert : List Record → Except String Unit) (payload : AuditPayload) : HttpResp :=
  let storeData := storeDataFlag payload
  match performAuditResults audit auditResultsMapping dateS datetimeS timeS payload with
  | .error e => ⟨500, RespBody.errorObj 500 e⟩
  | .ok results =>
    if storeData.truthy then
      match writeResultStream insert results with
      | .error e => ⟨500, RespBody.errorObj 500 e⟩
      | .ok _ => ⟨200, RespBody.records results⟩
    else ⟨200, RespBody.records results⟩

/-- Whether the handler reaches the storage write (app.js:81-83): the audit
phase succeeded and the store flag computed how app.js:59 computes it is
truthy. -/
def performAuditStores (audit : String → String → Except String (Option AuditOutcome))
    (auditResultsMapping : FieldMapping) (dateS datetimeS timeS : String)
    (payload : AuditPayload) : Bool :=
  match performAuditResults audit auditResultsMapping dateS datetimeS timeS payload with
  | .error _ => false
  | .ok _ => (storeDataFlag payload).truthy

/-- Modelled from the spec: `getChunkedList` is imported from
`src/utils/api.js`, a file that is not among the sources.  Per section 4.4
and section 8 of the spec it partitions the list into contiguous chunks of at
most `chunkSize` elements, preserving the original order within and across
chunks.  Chunk sizes below 1 do not arise (the only call site, app.js:141,
passes 1). -/
def getChunkedList (chunkSize : Nat) : List α → List (List α)
  | [] => []
  | x :: xs =>
    (x :: xs.take (chunkSize - 1)) :: getChunkedList chunkSize (xs.drop (chunkSize - 1))
termination_by l => l.length
decreasing_by simp only [List.length_cons, List.length_drop]; omega

/-- One Cloud Tasks create-task request as built by `scheduleAudits`
(app.js:165-173).  The body is `JSON.stringify({urls, blockedRequests})`
base64-encoded; both encodings are injective and external, so the payload is
kept structurally. -/
structure TaskReq where
  httpMethod : String
  url : String
  contentType : String
  payloadUrls : List String
  payloadBlockedRequests : List String
  scheduleTime : ℚ
deriving DecidableEq

/-- The `for` loop of `scheduleAudits` (app.js:159-183) over the chunks,
carrying the iteration index and the `inSeconds` accumulator (started at 10
and bumped by 10 after each task).  `Date.now() / 1000` is read once per
iteration; the `clock` parameter gives the reading of iteration `i`. -/
def scheduleLoop (clock : Nat → ℚ) (serviceUrl : String)
    (blockedRequests : List String) :
    List (List String) → Nat → ℚ → List TaskReq
  | [], _, _ => []
  | chunk :: rest, i, inSeconds =>
    ⟨"POST", serviceUrl, "application/json", chunk, blockedRequests,
      inSeconds + clock i⟩
      :: scheduleLoop clock serviceUrl blockedRequests rest (i + 1) (inSeconds + 10)

/-- Embeds the task-building part of the `scheduleAudits` handler
(app.js:135-186): chunks the URL list with chunk size 1, defaults an absent
`blockedRequests` to `[]`, and builds one staggered task per chunk.  Task
submission itself is an awaited external call and is not modelled. -/
def scheduleAudits (clock : Nat → ℚ) (serviceUrl : String) (urls : List String)
    (blockedRequests : Option (List String)) : List TaskReq :=
  scheduleLoop clock serviceUrl (blockedRequests.getD [])
    (getChunkedList 1 urls) 0 10

/-- A browser engine stub that succeeds on every URL with an empty audit-items
structure and performance score 1. -/
def constEngine : String → String → Except String (Option AuditOutcome) :=
  fun _cfg url => .ok (some ⟨⟨[], url⟩, 1⟩)

/-- The `mode` field of each returned record of an audit outcome. -/
def modeTags (r : Except String (List (Option Record))) :
    Except String (List (Option BQVal)) :=
  r.map (fun rs => rs.map (fun o => o.bind (fun result => result "mode")))

/-- C1: the claim says a request with mode `all` runs the orchestrator twice
and returns `2*N` records tagged `desktop` and `mobile`.  The inverted
ternary at app.js:57 replaces every string mode — `all` included — with the
literal `mobile`, so the `all` arm of the switch is dead code: for a 2-URL
batch with mode `all` the handler performs one single mobile run and returns
2 records, each tagged `mobile`. -/
theorem performAudit_mode_all_single_run :
    modeTags (performAuditResults constEngine [] "2026-10-11" "dt" "t"
        ⟨["https://a", "https://b"], none, JSVal.str "all", JSVal.undef, JSVal.undef⟩)
      = .ok [some (BQVal.str "mobile"), some (BQVal.str "mobile")]
    ∧ effectiveMode
        ⟨["https://a", "https://b"], none, JSVal.str "all", JSVal.undef, JSVal.undef⟩
      = JSVal.str "mobile" :=
  ⟨rfl, rfl⟩

/-- C2: the claim says results are stored iff `storeData` is the boolean
`true` and the misspelled `storeDate` plays no role.  The inverted ternary at
app.js:59 yields `false` for every boolean `storeData` — `true` included —
and reads the misspelled `storeDate` field otherwise: a request with
`storeData: true` is not stored, while one with only a truthy `storeDate`
is. -/
theorem storeData_flag_mismatch :
    performAuditStores constEngine [] "2026-10-11" "dt" "t"
        ⟨["https://a"], none, JSVal.undef, JSVal.boolV true, JSVal.undef⟩ = false
    ∧ performAuditStores constEngine [] "2026-10-11" "dt" "t"
        ⟨["https://a"], none, JSVal.undef, JSVal.undef, JSVal.str "yes"⟩ = true :=
  ⟨rfl, rfl⟩

/-- C8 counterexample: a resolved backend response whose audit-items
structure is absent while the performance category and score are present
makes `performAudit` of both variants resolve successfully with `undefined`
(a value without the `{metrics, performance}` shape) instead of failing, in
both the browser-driven and the remote-API variant. -/
theorem performAudit_malformed_counterexample :
    LighthouseAudit.performAudit "https://a"
        (.ok ⟨some ⟨none, some ⟨some ⟨1/2⟩⟩⟩⟩) = .ok none
    ∧ PageSpeedInsightsAudit.performAudit "https://a"
        (.ok ⟨some ⟨some ⟨none, some ⟨some ⟨1/2⟩⟩⟩⟩⟩) = .ok none :=
  ⟨rfl, rfl⟩

/-- C4 counterexample: on an accumulated raw-result list consisting of one
`undefined` entry, the formatter (an `Array.map`, not a filter) returns a
list of length 1 whose entry is `undefined`, while the number of defined raw
results is 0 — so the output length differs from the number of defined raw
results and the output does contain an `undefined` entry. -/
theorem formatter_skip_counterexample :
    (LighthouseAudit.getBQFormatResults
        ⟨["https://a"], [], "cfg", [none], [], []⟩ "2026-10-11" "dt" "t").length = 1
    ∧ ([(none : Option RawAudit)].countP Option.isSome) = 0
    ∧ LighthouseAudit.getBQFormatResults
        ⟨["https://a"], [], "cfg", [none], [], []⟩ "2026-10-11" "dt" "t" = [none] :=
  ⟨rfl, rfl, rfl⟩

theorem getChunkedList_flatten {α : Type} (C : Nat) :
    ∀ l : List α, (getChunkedList C l).flatten = l
  | [] => by rw [getChunkedList]; rfl
  | x :: xs => by
    rw [getChunkedList, List.flatten_cons,
      getChunkedList_flatten C (xs.drop (C - 1)), List.cons_append,
      List.take_append_drop]
termination_by l => l.length
decreasing_by simp only [List.length_cons, List.length_drop]; omega

theorem getChunkedList_length {α : Type} (C : Nat) (hC : 1 ≤ C) :
    ∀ l : List α, (getChunkedList C l).length = (l.length + C - 1) / C
  | [] => by
    rw [getChunkedList]
    simp only [List.length_nil, Nat.zero_add]
    exact (Nat.div_eq_of_lt (by omega)).symm
  | x :: xs => by
    rw [getChunkedList]
    simp only [List.length_cons]
    rw [getChunkedList_length C hC (xs.drop (C - 1))]
    simp only [List.length_drop]
    have h2 : xs.length + 1 + C - 1 = xs.length + C := by omega
    rw [h2, Nat.add_div_right _ (by omega : 0 < C)]
    rcases le_or_lt (C - 1) xs.length with h | h
    · have h3 : xs.length - (C - 1) + C - 1 = xs.length := by omega
      rw [h3]
    · have h3 : xs.length - (C - 1) + C - 1 = C - 1 := by omega
      rw [h3, Nat.div_eq_of_lt (by omega : C - 1 < C),
        Nat.div_eq_of_lt (by omega : xs.length < C)]
termination_by l => l.length
decreasing_by simp only [List.length_cons, List.length_drop]; omega

theorem getChunkedList_mem_length {α : Type} (C : Nat) (hC : 1 ≤ C) :
    ∀ (l : List α) (c : List α), c ∈ getChunkedList C l → c.length ≤ C
  | [], c, h => by rw [getChunkedList] at h; cases h
  | x :: xs, c, h => by
    rw [getChunkedList] at h
    rcases List.mem_cons.mp h with h1 | h2
    · subst h1
      simp only [List.length_cons, List.length_take]
      omega
    · exact getChunkedList_mem_length C hC (xs.drop (C - 1)) c h2
termination_by l _ _ => l.length
decreasing_by simp only [List.length_cons, List.length_drop]; omega

theorem scheduleLoop_length (clock : Nat → ℚ) (su : String) (bl : List String) :
    ∀ (chunks : List (List String)) (idx0 : Nat) (inS : ℚ),
      (scheduleLoop clock su bl chunks idx0 inS).length = chunks.length
  | [], _, _ => rfl
  | _ :: rest, idx0, inS => by
    simp only [scheduleLoop, List.length_cons]
    rw [scheduleLoop_length clock su bl rest (idx0 + 1) (inS + 10)]

theorem scheduleLoop_get (clock : Nat → ℚ) (su : String) (bl : List String) :
    ∀ (chunks : List (List String)) (idx0 : Nat) (inS : ℚ) (i : Nat)
      (h : i < (scheduleLoop clock su bl chunks idx0 inS).length),
      ((scheduleLoop clock su bl chunks idx0 inS).get ⟨i, h⟩).scheduleTime
        = inS + 10 * (i : ℚ) + clock (idx0 + i)
  | [], _, _, i, h => by simp [scheduleLoop] at h
  | chunk :: rest, idx0, inS, 0, h => by
    simp [scheduleLoop]
  | chunk :: rest, idx0, inS, i + 1, h => by
    have h2 : i < (scheduleLoop clock su bl rest (idx0 + 1) (inS + 10)).length := by
      have := h
      simp only [scheduleLoop, List.length_cons] at this
      omega
    have hsucc : ((scheduleLoop clock su bl (chunk :: rest) idx0 inS).get ⟨i + 1, h⟩)
        = ((scheduleLoop clock su bl rest (idx0 + 1) (inS + 10)).get ⟨i, h2⟩) := rfl
    rw [hsucc, scheduleLoop_get clock su bl rest (idx0 + 1) (inS + 10) i h2]
    have hn : idx0 + 1 + i = idx0 + (i + 1) := by omega
    rw [hn]
    push_cast
    ring

/-- C6: for every URL list of length N and chunk size C, with C at least 1,
the chunk scheduler partitions the list into `ceil(N/C)` contiguous chunks of
size at most C whose in-order concatenation reconstructs the list, and the
`scheduleAudits` handler applies it with the current chunk policy C = 1.
`getChunkedList` lives in the absent `src/utils/api.js` and is modelled from
the spec. -/
theorem chunk_scheduler_partition {α : Type} (C : Nat) (hC : 1 ≤ C) (l : List α) :
    (getChunkedList C l).length = (l.length + C - 1) / C
    ∧ (∀ c ∈ getChunkedList C l, c.length ≤ C)
    ∧ (getChunkedList C l).flatten = l
    ∧ (∀ (clock : Nat → ℚ) (su : String) (urls : List String)
        (bl : Option (List String)),
        scheduleAudits clock su urls bl
          = scheduleLoop clock su (bl.getD []) (getChunkedList 1 urls) 0 10) :=
  ⟨getChunkedList_length C hC l,
    fun c hc => getChunkedList_mem_length C hC l c hc,
    getChunkedList_flatten C l,
    fun _ _ _ _ => rfl⟩

/-- C6 witness: the chunk partition facts evaluated on the concrete list
`[1, 2, 3]` with chunk size 2. -/
theorem chunk_scheduler_partition_witness :
    (1 ≤ 2)
    ∧ ((getChunkedList 2 ([1, 2, 3] : List Nat)).length
        = (([1, 2, 3] : List Nat).length + 2 - 1) / 2
      ∧ (∀ c ∈ getChunkedList 2 ([1, 2, 3] : List Nat), c.length ≤ 2)
      ∧ (getChunkedList 2 ([1, 2, 3] : List Nat)).flatten = [1, 2, 3]
      ∧ (∀ (clock : Nat → ℚ) (su : String) (urls : List String)
          (bl : Option (List String)),
          scheduleAudits clock su urls bl
            = scheduleLoop clock su (bl.getD []) (getChunkedList 1 urls) 0 10)) :=
  ⟨by decide, chunk_scheduler_partition 2 (by decide) [1, 2, 3]⟩

/-- C7: when every per-iteration clock reading equals the invocation start
time `now`, chunk i (0-indexed) is assigned the schedule time
`now + 10 * (i + 1)` seconds, and the schedule times are strictly increasing
across chunks. -/
theorem staggered_schedule_times (clock : Nat → ℚ) (now : ℚ)
    (hclock : ∀ j, clock j = now) (su : String) (urls : List String)
    (bl : Option (List String)) :
    (∀ (i : Nat) (h : i < (scheduleAudits clock su urls bl).length),
      ((scheduleAudits clock su urls bl).get ⟨i, h⟩).scheduleTime
        = now + 10 * ((i : ℚ) + 1))
    ∧ (∀ (i : Nat) (h : i + 1 < (scheduleAudits clock su urls bl).length),
      ((scheduleAudits clock su urls bl).get ⟨i, Nat.lt_of_succ_lt h⟩).scheduleTime
        < ((scheduleAudits clock su urls bl).get ⟨i + 1, h⟩).scheduleTime) := by
  have key : ∀ (i : Nat) (h : i < (scheduleAudits clock su urls bl).length),
      ((scheduleAudits clock su urls bl).get ⟨i, h⟩).scheduleTime
        = now + 10 * ((i : ℚ) + 1) := by
    intro i h
    have hg := scheduleLoop_get clock su (bl.getD []) (getChunkedList 1 urls) 0 10 i h
    rw [hclock] at hg
    exact hg.trans (by ring)
  refine ⟨key, ?_⟩
  intro i h
  rw [key i (Nat.lt_of_succ_lt h), key (i + 1) h]
  push_cast
  linarith

/-- C7 witness: the schedule-time facts evaluated for a frozen clock at 5 and
a two-URL batch. -/
theorem staggered_schedule_times_witness :
    (∀ j : Nat, (fun _ : Nat => (5 : ℚ)) j = 5)
    ∧ ((∀ (i : Nat)
        (h : i < (scheduleAudits (fun _ => 5) "svc" ["a", "b"] none).length),
        ((scheduleAudits (fun _ => 5) "svc" ["a", "b"] none).get ⟨i, h⟩).scheduleTime
          = 5 + 10 * ((i : ℚ) + 1))
      ∧ (∀ (i : Nat)
        (h : i + 1 < (scheduleAudits (fun _ => 5) "svc" ["a", "b"] none).length),
        ((scheduleAudits (fun _ => 5) "svc" ["a", "b"] none).get
            ⟨i, Nat.lt_of_succ_lt h⟩).scheduleTime
          < ((scheduleAudits (fun _ => 5) "svc" ["a", "b"] none).get
            ⟨i + 1, h⟩).scheduleTime)) :=
  ⟨fun _ => rfl, staggered_schedule_times (fun _ => 5) 5 (fun _ => rfl) "svc" ["a", "b"] none⟩

theorem formatLoop_length (s : LighthouseAudit) (dateS datetimeS timeS : String) :
    ∀ (l : List (Option RawAudit)) (it : Nat),
      (LighthouseAudit.formatLoop s dateS datetimeS timeS l it).length = l.length
  | [], _ => rfl
  | none :: rest, it => by
    simp only [LighthouseAudit.formatLoop, List.length_cons]
    rw [formatLoop_length s dateS datetimeS timeS rest it]
  | some a :: rest, it => by
    simp only [LighthouseAudit.formatLoop, List.length_cons]
    rw [formatLoop_length s dateS datetimeS timeS rest (it + 1)]

theorem formatLoop_isSome (s : LighthouseAudit) (dateS datetimeS timeS : String) :
    ∀ (l : List (Option RawAudit)) (it i : Nat),
      ((LighthouseAudit.formatLoop s dateS datetimeS timeS l it)[i]?).map Option.isSome
        = (l[i]?).map Option.isSome
  | [], _, _ => rfl
  | none :: rest, it, 0 => by simp [LighthouseAudit.formatLoop]
  | some a :: rest, it, 0 => by simp [LighthouseAudit.formatLoop]
  | none :: rest, it, i + 1 => by
    simp only [LighthouseAudit.formatLoop, List.getElem?_cons_succ]
    exact formatLoop_isSome s dateS datetimeS timeS rest it i
  | some a :: rest, it, i + 1 => by
    simp only [LighthouseAudit.formatLoop, List.getElem?_cons_succ]
    exact formatLoop_isSome s dateS datetimeS timeS rest (it + 1) i

theorem formatLoop_all_some (s : LighthouseAudit) (dateS datetimeS timeS : String) :
    ∀ (l : List (Option RawAudit)) (it : Nat), (∀ o ∈ l, o.isSome) →
      ∀ x ∈ LighthouseAudit.formatLoop s dateS datetimeS timeS l it, x.isSome
  | [], _, _ => by intro x hx; cases hx
  | none :: rest, it, hall => by
    have := hall none (List.mem_cons_self none rest)
    simp at this
  | some a :: rest, it, hall => by
    intro x hx
    rcases List.mem_cons.mp hx with h1 | h2
    · subst h1; rfl
    · exact formatLoop_all_some s dateS datetimeS timeS rest (it + 1)
        (fun o ho => hall o (List.mem_cons_of_mem _ ho)) x h2

theorem runLoop_append_fail (audit : String → Except String (Option AuditOutcome))
    (url e : String) (post : List String) (hfail : audit url = .error e) :
    ∀ (pre : List String) (s : LighthouseAudit),
      (∀ u ∈ pre, ∃ r, audit u = .ok (some r)) →
      LighthouseAudit.runLoop audit s (pre ++ url :: post)
        = .error (e ++ " on " ++ url)
  | [], s, _ => by
    simp only [List.nil_append, LighthouseAudit.runLoop, hfail]
  | u :: pre, s, hpre => by
    obtain ⟨r, hr⟩ := hpre u (List.mem_cons_self u pre)
    simp only [List.cons_append, LighthouseAudit.runLoop, hr]
    exact runLoop_append_fail audit url e post hfail pre _
      (fun v hv => hpre v (List.mem_cons_of_mem u hv))

theorem runLoop_appends (audit : String → Except String (Option AuditOutcome)) :
    ∀ (urls : List String) (s s₁ : LighthouseAudit),
      LighthouseAudit.runLoop audit s urls = .ok s₁ →
      ∃ (newRes : List (Option RawAudit)) (newPerf : List ℚ),
        s₁ = { s with auditResults := s.auditResults ++ newRes,
                      performanceScore := s.performanceScore ++ newPerf }
        ∧ newRes.length = urls.length ∧ newPerf.length = urls.length
        ∧ (∀ o ∈ newRes, o.isSome)
  | [], s, s₁, h => by
    simp only [LighthouseAudit.runLoop, Except.ok.injEq] at h
    refine ⟨[], [], ?_, rfl, rfl, by simp⟩
    rw [← h]
    simp
  | url :: rest, s, s₁, h => by
    rcases haudit : audit url with e | o
    · simp only [LighthouseAudit.runLoop, haudit] at h
      exact Except.noConfusion h
    · rcases o with _ | r
      · simp only [LighthouseAudit.runLoop, haudit] at h
        exact Except.noConfusion h
      · simp only [LighthouseAudit.runLoop, haudit] at h
        obtain ⟨nr, np, heq, hlen1, hlen2, hsome⟩ := runLoop_appends audit rest _ s₁ h
        refine ⟨some r.metrics :: nr, r.performance :: np, ?_,
          by simp [hlen1], by simp [hlen2], ?_⟩
        · rw [heq]
          simp [List.append_assoc]
        · intro o ho
          rcases List.mem_cons.mp ho with h1 | h2
          · subst h1; rfl
          · exact hsome o h2

/-- C3: when the orchestrator's URL list splits as `pre ++ url :: post` with
the backend succeeding on every URL of `pre` and failing on `url` with
message `e`, the run throws `e ++ " on " ++ url` — the backend message with
the failing URL appended — returns no partial result list, and audits no URL
after the failing one: any backend behaving identically up to and including
the failing URL (and arbitrarily on `post`) produces the identical
outcome. -/
theorem run_all_or_nothing
    (audit audit₂ : String → Except String (Option AuditOutcome))
    (s : LighthouseAudit) (pre post : List String) (url e : String)
    (hurls : s.urls = pre ++ url :: post)
    (hpre : ∀ u ∈ pre, ∃ r, audit u = .ok (some r))
    (hfail : audit url = .error e)
    (hagree : ∀ u ∈ pre, audit₂ u = audit u)
    (hagreeUrl : audit₂ url = audit url) :
    LighthouseAudit.run audit s = .error (e ++ " on " ++ url)
    ∧ LighthouseAudit.run audit₂ s = LighthouseAudit.run audit s := by
  have h1 : LighthouseAudit.run audit s = .error (e ++ " on " ++ url) := by
    rw [LighthouseAudit.run, hurls]
    exact runLoop_append_fail audit url e post hfail pre s hpre
  have h2 : LighthouseAudit.run audit₂ s = .error (e ++ " on " ++ url) := by
    rw [LighthouseAudit.run, hurls]
    refine runLoop_append_fail audit₂ url e post (hagreeUrl.trans hfail) pre s ?_
    intro u hu
    obtain ⟨r, hr⟩ := hpre u hu
    exact ⟨r, (hagree u hu).trans hr⟩
  exact ⟨h1, h2.trans h1.symm⟩

/-- A per-URL audit stub that fails on `https://b` and succeeds elsewhere. -/
def auditFailB : String → Except String (Option AuditOutcome) :=
  fun u => if u = "https://b" then .error "boom" else .ok (some ⟨⟨[], u⟩, 1⟩)

/-- A per-URL audit stub agreeing with `auditFailB` except on `https://c`,
where it fails instead of succeeding. -/
def auditFailBC : String → Except String (Option AuditOutcome) :=
  fun u => if u = "https://c" then .error "late" else auditFailB u

/-- C3 witness: on the batch `[https://a, https://b, https://c]` with the
backend failing on `https://b`, the run aborts with the wrapped message, and
a backend differing only on the never-reached `https://c` yields the same
outcome. -/
theorem run_all_or_nothing_witness :
    (auditFailB "https://b" = .error "boom")
    ∧ LighthouseAudit.run auditFailB
        (LighthouseAudit.new ["https://a", "https://b", "https://c"] [] "cfg" [])
        = .error ("boom" ++ " on " ++ "https://b")
    ∧ LighthouseAudit.run auditFailBC
        (LighthouseAudit.new ["https://a", "https://b", "https://c"] [] "cfg" [])
        = LighthouseAudit.run auditFailB
          (LighthouseAudit.new ["https://a", "https://b", "https://c"] [] "cfg" []) := by
  have h := run_all_or_nothing auditFailB auditFailBC
    (LighthouseAudit.new ["https://a", "https://b", "https://c"] [] "cfg" [])
    ["https://a"] ["https://c"] "https://b" "boom" rfl
    (by
      intro u hu
      simp only [List.mem_singleton] at hu
      subst hu
      exact ⟨⟨⟨[], "https://a"⟩, 1⟩, rfl⟩)
    rfl
    (by
      intro u hu
      simp only [List.mem_singleton] at hu
      subst hu
      rfl)
    rfl
  exact ⟨rfl, h.1, h.2⟩

/-- C10: invoking `run` twice on one instance never resets the accumulation
state: the first run appends its results to the constructor-initialised
arrays, the second appends after the first, the URL list is unchanged, and
`getBQFormatResults` formats the union of both runs (one output entry per
accumulated raw result). -/
theorem run_twice_appends
    (audit audit₂ : String → Except String (Option AuditOutcome))
    (s s₁ s₂ : LighthouseAudit) (dateS datetimeS timeS : String)
    (h1 : LighthouseAudit.run audit s = .ok s₁)
    (h2 : LighthouseAudit.run audit₂ s₁ = .ok s₂) :
    ∃ (n₁ n₂ : List (Option RawAudit)),
      s₁.auditResults = s.auditResults ++ n₁
      ∧ s₂.auditResults = s.auditResults ++ n₁ ++ n₂
      ∧ n₁.length = s.urls.length ∧ n₂.length = s.urls.length
      ∧ s₁.urls = s.urls ∧ s₂.urls = s.urls
      ∧ (LighthouseAudit.getBQFormatResults s₂ dateS datetimeS timeS).length
          = s.auditResults.length + n₁.length + n₂.length := by
  obtain ⟨n₁, p₁, heq1, hlen1, -, -⟩ := runLoop_appends audit s.urls s s₁ h1
  obtain ⟨n₂, p₂, heq2, hlen2, -, -⟩ := runLoop_appends audit₂ s₁.urls s₁ s₂ h2
  have hu1 : s₁.urls = s.urls := by rw [heq1]
  have hr1 : s₁.auditResults = s.auditResults ++ n₁ := by rw [heq1]
  have hr2 : s₂.auditResults = s.auditResults ++ n₁ ++ n₂ := by
    rw [heq2, hr1]
  have hu2 : s₂.urls = s.urls := by rw [heq2, hu1]
  refine ⟨n₁, n₂, hr1, hr2, hlen1, by rw [hlen2, hu1], hu1, hu2, ?_⟩
  rw [LighthouseAudit.getBQFormatResults, formatLoop_length, hr2]
  simp only [List.length_append]

/-- A per-URL audit stub that succeeds on every URL with an empty audit-items
structure and performance score 1. -/
def auditOkStub : String → Except String (Option AuditOutcome) :=
  fun u => .ok (some ⟨⟨[], u⟩, 1⟩)

/-- C10 witness: running twice on a fresh one-URL instance accumulates two
results, the second appended after the first. -/
theorem run_twice_appends_witness :
    LighthouseAudit.run auditOkStub (LighthouseAudit.new ["u"] [] "cfg" [])
      = .ok ⟨["u"], [], "cfg", [some ⟨[], "u"⟩], [], [1]⟩
    ∧ LighthouseAudit.run auditOkStub ⟨["u"], [], "cfg", [some ⟨[], "u"⟩], [], [1]⟩
      = .ok ⟨["u"], [], "cfg", [some ⟨[], "u"⟩, some ⟨[], "u"⟩], [], [1, 1]⟩
    ∧ (∃ (n₁ n₂ : List (Option RawAudit)),
      (⟨["u"], [], "cfg", [some ⟨[], "u"⟩], [], [1]⟩ : LighthouseAudit).auditResults
        = (LighthouseAudit.new ["u"] [] "cfg" []).auditResults ++ n₁
      ∧ (⟨["u"], [], "cfg", [some ⟨[], "u"⟩, some ⟨[], "u"⟩], [], [1, 1]⟩
          : LighthouseAudit).auditResults
        = (LighthouseAudit.new ["u"] [] "cfg" []).auditResults ++ n₁ ++ n₂
      ∧ n₁.length = (LighthouseAudit.new ["u"] [] "cfg" []).urls.length
      ∧ n₂.length = (LighthouseAudit.new ["u"] [] "cfg" []).urls.length
      ∧ (⟨["u"], [], "cfg", [some ⟨[], "u"⟩], [], [1]⟩ : LighthouseAudit).urls
          = (LighthouseAudit.new ["u"] [] "cfg" []).urls
      ∧ (⟨["u"], [], "cfg", [some ⟨[], "u"⟩, some ⟨[], "u"⟩], [], [1, 1]⟩
          : LighthouseAudit).urls = (LighthouseAudit.new ["u"] [] "cfg" []).urls
      ∧ (LighthouseAudit.getBQFormatResults
          ⟨["u"], [], "cfg", [some ⟨[], "u"⟩, some ⟨[], "u"⟩], [], [1, 1]⟩
          "2026-10-11" "dt" "t").length
        = (LighthouseAudit.new ["u"] [] "cfg" []).auditResults.length
          + n₁.length + n₂.length) :=
  ⟨rfl, rfl,
    run_twice_appends auditOkStub auditOkStub
      (LighthouseAudit.new ["u"] [] "cfg" [])
      ⟨["u"], [], "cfg", [some ⟨[], "u"⟩], [], [1]⟩
      ⟨["u"], [], "cfg", [some ⟨[], "u"⟩, some ⟨[], "u"⟩], [], [1, 1]⟩
      "2026-10-11" "dt" "t" rfl rfl⟩

/-- C4 (amended): the formatter is an `Array.map`, not a filter — it emits
one output entry per accumulated raw result, a formatted record at the
position of every defined raw result and an `undefined` entry at the
position of every undefined raw result, so the output length equals the
raw-result list length. -/
theorem formatter_entries (s : LighthouseAudit) (dateS datetimeS timeS : String) :
    (LighthouseAudit.getBQFormatResults s dateS datetimeS timeS).length
      = s.auditResults.length
    ∧ ∀ i : Nat,
      ((LighthouseAudit.getBQFormatResults s dateS datetimeS timeS)[i]?).map Option.isSome
        = (s.auditResults[i]?).map Option.isSome :=
  ⟨formatLoop_length s dateS datetimeS timeS s.auditResults 0,
    fun i => formatLoop_isSome s dateS datetimeS timeS s.auditResults 0 i⟩

theorem ne_append_score (s : String) : s ≠ s ++ "_score" := by
  intro h
  have hl := congrArg String.length h
  rw [String.length_append] at hl
  have h6 : "_score".length = 6 := rfl
  omega

theorem append_score_inj {s t : String} (h : s ++ "_score" = t ++ "_score") : s = t := by
  have hd := congrArg String.data h
  rw [String.data_append, String.data_append] at hd
  exact String.ext (List.append_cancel_right hd)

/-- The record fields stamped after the field-mapping fold in both
formatters. -/
def specialFields : List String :=
  ["performanceScore", "date", "datetime", "time", "url", "blockedRequests"]

theorem mappingFold_untouched (audit : RawAudit) :
    ∀ (l : FieldMapping) (res : Record) (x : String),
      (∀ p ∈ l, x ≠ p.1 ∧ x ≠ p.1 ++ "_score") →
      (l.foldl (mappingStep audit) res) x = res x
  | [], _, _, _ => rfl
  | p :: l, res, x, huntouched => by
    rw [List.foldl_cons,
      mappingFold_untouched audit l (mappingStep audit res p) x
        (fun q hq => huntouched q (List.mem_cons_of_mem p hq))]
    obtain ⟨h1, h2⟩ := huntouched p (List.mem_cons_self p l)
    rw [mappingStep, Record.set_ne _ _ _ _ h2, Record.set_ne _ _ _ _ h1]

theorem mappingFold_get (audit : RawAudit) (mapping : FieldMapping) (k rk : String)
    (hmem : (k, rk) ∈ mapping)
    (hnodup : (mapping.map Prod.fst).Nodup)
    (hscore : ∀ p ∈ mapping, ∀ q ∈ mapping, p.1 ≠ q.1 ++ "_score") :
    mappingFold mapping audit k
      = some (BQVal.num (((audit.items.lookup rk).map AuditItem.numericValue).getD 0))
    ∧ mappingFold mapping audit (k ++ "_score")
      = some (BQVal.num (((audit.items.lookup rk).map AuditItem.score).getD 0)) := by
  obtain ⟨l₁, l₂, hsplit⟩ := List.append_of_mem hmem
  have hkl₂ : ∀ p ∈ l₂, p.1 ≠ k := by
    have hnd := hnodup
    rw [hsplit, List.map_append, List.map_cons] at hnd
    have hnd2 := hnd.of_append_right
    rw [List.nodup_cons] at hnd2
    intro p hp hpk
    have hmem2 : p.1 ∈ List.map Prod.fst l₂ := List.mem_map_of_mem Prod.fst hp
    rw [hpk] at hmem2
    exact hnd2.1 hmem2
  have hl₂ : ∀ p ∈ l₂, p ∈ mapping := by
    intro p hp
    rw [hsplit]
    exact List.mem_append.mpr (Or.inr (List.mem_cons_of_mem _ hp))
  have hfold : mappingFold mapping audit
      = l₂.foldl (mappingStep audit)
          (mappingStep audit (l₁.foldl (mappingStep audit) Record.empty) (k, rk)) := by
    rw [mappingFold, hsplit, List.foldl_append, List.foldl_cons]
  constructor
  · rw [hfold, mappingFold_untouched audit l₂ _ k ?_]
    · rw [mappingStep, Record.set_ne _ _ _ _ (ne_append_score k), Record.set_same]
    · intro p hp
      refine ⟨fun h => (hkl₂ p hp) h.symm, fun h => ?_⟩
      exact hscore (k, rk) hmem p (hl₂ p hp) h
  · rw [hfold, mappingFold_untouched audit l₂ _ (k ++ "_score") ?_]
    · rw [mappingStep, Record.set_same]
    · intro p hp
      constructor
      · intro h
        exact hscore p (hl₂ p hp) (k, rk) hmem h.symm
      · intro h
        exact (hkl₂ p hp) (append_score_inj h).symm

/-- C5: for a defined raw result and any (outputField, rawKey) pair of a
well-formed field mapping (output fields pairwise distinct — they are keys of
one JavaScript object — none equal to another pair's score field, and none
colliding with the stamped special fields), both formatters emit
`outputField` as the raw item's `numericValue` when the item exists and `0`
otherwise, and `outputField ++ "_score"` as the item's `score` when it exists
and `0` otherwise. -/
theorem formatter_field_values
    (mapping : FieldMapping) (audit : RawAudit) (perf : Option ℚ)
    (dateS datetimeS timeS : String) (blocked : List String) (k rk : String)
    (hmem : (k, rk) ∈ mapping)
    (hnodup : (mapping.map Prod.fst).Nodup)
    (hscore : ∀ p ∈ mapping, ∀ q ∈ mapping, p.1 ≠ q.1 ++ "_score")
    (hspecial : ∀ p ∈ mapping, p.1 ∉ specialFields ∧ (p.1 ++ "_score") ∉ specialFields) :
    formatOneAudit mapping audit perf dateS datetimeS timeS blocked k
      = some (BQVal.num (((audit.items.lookup rk).map AuditItem.numericValue).getD 0))
    ∧ formatOneAudit mapping audit perf dateS datetimeS timeS blocked (k ++ "_score")
      = some (BQVal.num (((audit.items.lookup rk).map AuditItem.score).getD 0))
    ∧ formatOnePSIAudit mapping audit perf dateS datetimeS timeS k
      = some (BQVal.num (((audit.items.lookup rk).map AuditItem.numericValue).getD 0))
    ∧ formatOnePSIAudit mapping audit perf dateS datetimeS timeS (k ++ "_score")
      = some (BQVal.num (((audit.items.lookup rk).map AuditItem.score).getD 0)) := by
  obtain ⟨hk, hks⟩ := hspecial (k, rk) hmem
  simp only [specialFields, List.mem_cons, List.not_mem_nil, or_false, not_or] at hk hks
  obtain ⟨hk1, hk2, hk3, hk4, hk5, hk6⟩ := hk
  obtain ⟨hs1, hs2, hs3, hs4, hs5, hs6⟩ := hks
  obtain ⟨hnum, hsco⟩ := mappingFold_get audit mapping k rk hmem hnodup hscore
  refine ⟨?_, ?_, ?_, ?_⟩
  · simp only [formatOneAudit.eq_def]
    rw [Record.set_ne _ _ _ _ hk6, Record.set_ne _ _ _ _ hk5,
      Record.set_ne _ _ _ _ hk4, Record.set_ne _ _ _ _ hk3,
      Record.set_ne _ _ _ _ hk2, Record.set_ne _ _ _ _ hk1]
    exact hnum
  · simp only [formatOneAudit.eq_def]
    rw [Record.set_ne _ _ _ _ hs6, Record.set_ne _ _ _ _ hs5,
      Record.set_ne _ _ _ _ hs4, Record.set_ne _ _ _ _ hs3,
      Record.set_ne _ _ _ _ hs2, Record.set_ne _ _ _ _ hs1]
    exact hsco
  · simp only [formatOnePSIAudit.eq_def]
    rw [Record.set_ne _ _ _ _ hk5, Record.set_ne _ _ _ _ hk4,
      Record.set_ne _ _ _ _ hk3, Record.set_ne _ _ _ _ hk2,
      Record.set_ne _ _ _ _ hk1]
    exact hnum
  · simp only [formatOnePSIAudit.eq_def]
    rw [Record.set_ne _ _ _ _ hs5, Record.set_ne _ _ _ _ hs4,
      Record.set_ne _ _ _ _ hs3, Record.set_ne _ _ _ _ hs2,
      Record.set_ne _ _ _ _ hs1]
    exact hsco

/-- C5 witness: a two-pair mapping applied to a raw result containing
`first-contentful-paint` with numericValue 123.4 and score 0.9 and missing
`largest-contentful-paint` yields exactly those values for the present pair
and 0 for the absent one. -/
theorem formatter_field_values_witness :
    formatOneAudit
        [("firstContentfulPaint", "first-contentful-paint"),
         ("largestContentfulPaint", "largest-contentful-paint")]
        ⟨[("first-contentful-paint", ⟨1234 / 10, 9 / 10⟩)], "https://a"⟩
        (some (95 / 100)) "2026-10-11" "dt" "t" []
        "firstContentfulPaint" = some (BQVal.num (1234 / 10))
    ∧ formatOneAudit
        [("firstContentfulPaint", "first-contentful-paint"),
         ("largestContentfulPaint", "largest-contentful-paint")]
        ⟨[("first-contentful-paint", ⟨1234 / 10, 9 / 10⟩)], "https://a"⟩
        (some (95 / 100)) "2026-10-11" "dt" "t" []
        ("firstContentfulPaint" ++ "_score") = some (BQVal.num (9 / 10))
    ∧ formatOneAudit
        [("firstContentfulPaint", "first-contentful-paint"),
         ("largestContentfulPaint", "largest-contentful-paint")]
        ⟨[("first-contentful-paint", ⟨1234 / 10, 9 / 10⟩)], "https://a"⟩
        (some (95 / 100)) "2026-10-11" "dt" "t" []
        "largestContentfulPaint" = some (BQVal.num 0)
    ∧ formatOneAudit
        [("firstContentfulPaint", "first-contentful-paint"),
         ("largestContentfulPaint", "largest-contentful-paint")]
        ⟨[("first-contentful-paint", ⟨1234 / 10, 9 / 10⟩)], "https://a"⟩
        (some (95 / 100)) "2026-10-11" "dt" "t" []
        ("largestContentfulPaint" ++ "_score") = some (BQVal.num 0) := by
  have h1 := formatter_field_values
    [("firstContentfulPaint", "first-contentful-paint"),
     ("largestContentfulPaint", "largest-contentful-paint")]
    ⟨[("first-contentful-paint", ⟨1234 / 10, 9 / 10⟩)], "https://a"⟩
    (some (95 / 100)) "2026-10-11" "dt" "t" []
    "firstContentfulPaint" "first-contentful-paint"
    (by decide) (by decide) (by decide) (by decide)
  have h2 := formatter_field_values
    [("firstContentfulPaint", "first-contentful-paint"),
     ("largestContentfulPaint", "largest-contentful-paint")]
    ⟨[("first-contentful-paint", ⟨1234 / 10, 9 / 10⟩)], "https://a"⟩
    (some (95 / 100)) "2026-10-11" "dt" "t" []
    "largestContentfulPaint" "largest-contentful-paint"
    (by decide) (by decide) (by decide) (by decide)
  exact ⟨h1.1, h1.2.1, h2.1, h2.2.1⟩

/-- C8 (amended): on a backend rejection both Audit Runner variants fail
with the backend's own message wrapped with the variant's label; on a
resolved response missing the `lhr` envelope, the categories object or the
performance category, the property access throws and the variants fail with
the wrapped TypeError message; but when only the audit-items structure is
undefined or null — with the performance score still reachable — both
variants resolve successfully with `undefined` (a value lacking the
`{metrics, performance}` shape) instead of failing. -/
theorem performAudit_malformed_response (url : String) (m : LHMetrics) (pm : PSIMetrics) :
    (∀ e : String, LighthouseAudit.performAudit url (.error e)
      = .error ("LH Audit error: " ++ e))
    ∧ (m.lhr = none → LighthouseAudit.performAudit url (.ok m)
      = .error ("LH Audit error: " ++ typeErrorReading "audits"))
    ∧ (∀ lhr, m.lhr = some lhr → lhr.categories = none →
      LighthouseAudit.performAudit url (.ok m)
        = .error ("LH Audit error: " ++ typeErrorReading "performance"))
    ∧ (∀ lhr cats, m.lhr = some lhr → lhr.categories = some cats →
      cats.performance = none →
      LighthouseAudit.performAudit url (.ok m)
        = .error ("LH Audit error: " ++ typeErrorReading "score"))
    ∧ (∀ lhr cats p, m.lhr = some lhr → lhr.audits = none →
      lhr.categories = some cats → cats.performance = some p →
      LighthouseAudit.performAudit url (.ok m) = .ok none)
    ∧ (∀ e : String, PageSpeedInsightsAudit.performAudit url (.error e)
      = .error ("PSI Audit error: " ++ e))
    ∧ (∀ d lhr cats p, pm.data = some d → d.lighthouseResult = some lhr →
      lhr.audits = none → lhr.categories = some cats → cats.performance = some p →
      PageSpeedInsightsAudit.performAudit url (.ok pm) = .ok none) := by
  obtain ⟨ml⟩ := m
  obtain ⟨pd⟩ := pm
  refine ⟨fun e => rfl, ?_, ?_, ?_, ?_, fun e => rfl, ?_⟩
  · intro hm
    cases hm
    rfl
  · intro lhr hm hc
    cases hm
    obtain ⟨au, cat⟩ := lhr
    cases hc
    rfl
  · intro lhr cats hm hc hp
    cases hm
    obtain ⟨au, cat⟩ := lhr
    cases hc
    obtain ⟨perf⟩ := cats
    cases hp
    rfl
  · intro lhr cats p hm ha hc hp
    cases hm
    obtain ⟨au, cat⟩ := lhr
    cases ha
    cases hc
    obtain ⟨perf⟩ := cats
    cases hp
    rfl
  · intro d lhr cats p hd hl ha hc hp
    cases hd
    obtain ⟨dl⟩ := d
    cases hl
    obtain ⟨au, cat⟩ := lhr
    cases ha
    cases hc
    obtain ⟨perf⟩ := cats
    cases hp
    rfl

/-- C8 amended-claim witness: the failure and fall-through cases evaluated on
concrete malformed responses. -/
theorem performAudit_malformed_response_witness :
    LighthouseAudit.performAudit "https://a" (.error "engine down")
      = .error ("LH Audit error: " ++ "engine down")
    ∧ LighthouseAudit.performAudit "https://a" (.ok ⟨none⟩)
      = .error ("LH Audit error: " ++ typeErrorReading "audits")
    ∧ LighthouseAudit.performAudit "https://a" (.ok ⟨some ⟨some [], none⟩⟩)
      = .error ("LH Audit error: " ++ typeErrorReading "performance")
    ∧ LighthouseAudit.performAudit "https://a" (.ok ⟨some ⟨some [], some ⟨none⟩⟩⟩)
      = .error ("LH Audit error: " ++ typeErrorReading "score")
    ∧ LighthouseAudit.performAudit "https://a" (.ok ⟨some ⟨none, some ⟨some ⟨3 / 4⟩⟩⟩⟩)
      = .ok none
    ∧ PageSpeedInsightsAudit.performAudit "https://a" (.error "quota")
      = .error ("PSI Audit error: " ++ "quota")
    ∧ PageSpeedInsightsAudit.performAudit "https://a"
        (.ok ⟨some ⟨some ⟨none, some ⟨some ⟨3 / 4⟩⟩⟩⟩⟩) = .ok none := by
  have hlh := performAudit_malformed_response "https://a" ⟨none⟩ ⟨none⟩
  have hcat := performAudit_malformed_response "https://a" ⟨some ⟨some [], none⟩⟩ ⟨none⟩
  have hsco := performAudit_malformed_response "https://a"
    ⟨some ⟨some [], some ⟨none⟩⟩⟩ ⟨none⟩
  have hnone := performAudit_malformed_response "https://a"
    ⟨some ⟨none, some ⟨some ⟨3 / 4⟩⟩⟩⟩ ⟨some ⟨some ⟨none, some ⟨some ⟨3 / 4⟩⟩⟩⟩⟩
  exact ⟨hlh.1 "engine down",
    hlh.2.1 rfl,
    hcat.2.2.1 ⟨some [], none⟩ rfl rfl,
    hsco.2.2.2.1 ⟨some [], some ⟨none⟩⟩ ⟨none⟩ rfl rfl rfl,
    hnone.2.2.2.2.1 ⟨none, some ⟨some ⟨3 / 4⟩⟩⟩ ⟨some ⟨3 / 4⟩⟩ ⟨3 / 4⟩ rfl rfl rfl rfl,
    hnone.2.2.2.2.2.1 "quota",
    hnone.2.2.2.2.2.2 ⟨some ⟨none, some ⟨some ⟨3 / 4⟩⟩⟩⟩ ⟨none, some ⟨some ⟨3 / 4⟩⟩⟩
      ⟨some ⟨3 / 4⟩⟩ ⟨3 / 4⟩ rfl rfl rfl rfl rfl⟩

theorem prepareRows_isSome :
    ∀ rows : List (Option Record), (∀ o ∈ rows, o.isSome) →
      ∃ l, prepareRows rows = some l
  | [], _ => ⟨[], rfl⟩
  | none :: rest, hall => by
    have := hall none (List.mem_cons_self none rest)
    simp at this
  | some r :: rest, hall => by
    obtain ⟨l, hl⟩ := prepareRows_isSome rest
      (fun o ho => hall o (List.mem_cons_of_mem _ ho))
    exact ⟨prepareRow r :: l, by rw [prepareRows, hl]; rfl⟩

theorem writeResultStream_ok (insert : List Record → Except String Unit)
    (rows : List (Option Record)) (hall : ∀ o ∈ rows, o.isSome) :
    writeResultStream insert rows = .ok () := by
  obtain ⟨l, hl⟩ := prepareRows_isSome rows hall
  simp only [writeResultStream, hl]
  rcases hi : insert l with e | u <;> simp [hi]

theorem performLightouseAudit_all_some
    (audit : String → String → Except String (Option AuditOutcome))
    (mapping : FieldMapping) (dateS datetimeS timeS : String)
    (urls : List String) (bl : Option (List String)) (mode : JSVal)
    (rs : List (Option Record))
    (hok : performLightouseAudit audit mapping dateS datetimeS timeS urls bl mode
      = .ok rs) :
    ∀ o ∈ rs, o.isSome := by
  rw [performLightouseAudit] at hok
  rcases hrun : LighthouseAudit.run (audit (auditConfigFor mode))
      (LighthouseAudit.new urls (bl.getD []) (auditConfigFor mode) mapping)
      with e | s
  · rw [hrun] at hok
    exact Except.noConfusion hok
  · rw [hrun] at hok
    simp only [Except.ok.injEq] at hok
    subst hok
    intro o ho
    obtain ⟨x, hx, hxo⟩ := List.mem_map.mp ho
    obtain ⟨newRes, newPerf, heq, -, -, hsome⟩ :=
      runLoop_appends (audit (auditConfigFor mode))
        (LighthouseAudit.new urls (bl.getD []) (auditConfigFor mode) mapping).urls
        (LighthouseAudit.new urls (bl.getD []) (auditConfigFor mode) mapping) s hrun
    have hres : s.auditResults = newRes := by
      rw [heq]
      simp [LighthouseAudit.new]
    have hallres : ∀ o2 ∈ s.auditResults, o2.isSome := by
      rw [hres]
      exact hsome
    have hx2 := formatLoop_all_some s dateS datetimeS timeS s.auditResults 0 hallres x hx
    rw [← hxo]
    rcases x with _ | xr
    · simp at hx2
    · rfl

theorem performAuditResults_all_some
    (audit : String → String → Except String (Option AuditOutcome))
    (mapping : FieldMapping) (dateS datetimeS timeS : String)
    (payload : AuditPayload) (results : List (Option Record))
    (hok : performAuditResults audit mapping dateS datetimeS timeS payload
      = .ok results) :
    ∀ o ∈ results, o.isSome := by
  rw [performAuditResults] at hok
  by_cases hall : effectiveMode payload = JSVal.str "all"
  · rw [if_pos hall] at hok
    rcases hd : performLightouseAudit audit mapping dateS datetimeS timeS
        payload.urls payload.blockedRequests (JSVal.str "desktop") with e | drs
    · rw [hd] at hok
      exact Except.noConfusion hok
    · rw [hd] at hok
      rcases hm : performLightouseAudit audit mapping dateS datetimeS timeS
          payload.urls payload.blockedRequests (JSVal.str "mobile") with e | mrs
      · rw [hm] at hok
        exact Except.noConfusion hok
      · rw [hm] at hok
        simp only [Except.ok.injEq] at hok
        subst hok
        intro o ho
        rcases List.mem_append.mp ho with h1 | h2
        · exact performLightouseAudit_all_some audit mapping dateS datetimeS timeS
            payload.urls payload.blockedRequests (JSVal.str "desktop") drs hd o h1
        · exact performLightouseAudit_all_some audit mapping dateS datetimeS timeS
            payload.urls payload.blockedRequests (JSVal.str "mobile") mrs hm o h2
  · rw [if_neg hall] at hok
    exact performLightouseAudit_all_some audit mapping dateS datetimeS timeS
      payload.urls payload.blockedRequests (effectiveMode payload) results hok

/-- C9: when the audit phase succeeds and the store flag is truthy, the
handler's response does not depend on the storage collaborator's outcome at
all — a storage-write failure is swallowed inside `writeResultStream` and the
handler still answers 200 with the formatted-records array, unchanged from
the no-failure case. -/
theorem storage_failure_not_surfaced
    (audit : String → String → Except String (Option AuditOutcome))
    (mapping : FieldMapping) (dateS datetimeS timeS : String)
    (insert insert₂ : List Record → Except String Unit)
    (payload : AuditPayload) (results : List (Option Record))
    (hok : performAuditResults audit mapping dateS datetimeS timeS payload
      = .ok results)
    (hstore : (storeDataFlag payload).truthy = true) :
    performAudit audit mapping dateS datetimeS timeS insert payload
      = performAudit audit mapping dateS datetimeS timeS insert₂ payload
    ∧ performAudit audit mapping dateS datetimeS timeS insert payload
      = ⟨200, RespBody.records results⟩ := by
  have hall := performAuditResults_all_some audit mapping dateS datetimeS timeS
    payload results hok
  have key : ∀ ins : List Record → Except String Unit,
      performAudit audit mapping dateS datetimeS timeS ins payload
        = ⟨200, RespBody.records results⟩ := by
    intro ins
    rw [performAudit.eq_def, hok]
    simp only [hstore, if_true, writeResultStream_ok ins results hall]
  exact ⟨(key insert).trans (key insert₂).symm, key insert⟩

/-- An insert stub that always fails. -/
def insertFail : List Record → Except String Unit := fun _ => .error "BigQuery fail"

/-- An insert stub that always succeeds. -/
def insertOk : List Record → Except String Unit := fun _ => .ok ()

/-- C9 witness: for a concrete stored one-URL request, a failing insert and a
succeeding insert produce the identical 200 response carrying the formatted
records. -/
theorem storage_failure_not_surfaced_witness :
    performAuditResults constEngine [] "2026-10-11" "dt" "t"
        ⟨["https://a"], none, JSVal.undef, JSVal.undef, JSVal.str "yes"⟩
      = .ok ((performAuditResults constEngine [] "2026-10-11" "dt" "t"
          ⟨["https://a"], none, JSVal.undef, JSVal.undef, JSVal.str "yes"⟩).toOption.getD [])
    ∧ (storeDataFlag ⟨["https://a"], none, JSVal.undef, JSVal.undef, JSVal.str "yes"⟩).truthy
      = true
    ∧ performAudit constEngine [] "2026-10-11" "dt" "t" insertFail
        ⟨["https://a"], none, JSVal.undef, JSVal.undef, JSVal.str "yes"⟩
      = performAudit constEngine [] "2026-10-11" "dt" "t" insertOk
        ⟨["https://a"], none, JSVal.undef, JSVal.undef, JSVal.str "yes"⟩
    ∧ performAudit constEngine [] "2026-10-11" "dt" "t" insertFail
        ⟨["https://a"], none, JSVal.undef, JSVal.undef, JSVal.str "yes"⟩
      = ⟨200, RespBody.records
          ((performAuditResults constEngine [] "2026-10-11" "dt" "t"
            ⟨["https://a"], none, JSVal.undef, JSVal.undef, JSVal.str "yes"⟩).toOption.getD [])⟩ := by
  have h := storage_failure_not_surfaced constEngine [] "2026-10-11" "dt" "t"
    insertFail insertOk
    ⟨["https://a"], none, JSVal.undef, JSVal.undef, JSVal.str "yes"⟩
    ((performAuditResults constEngine [] "2026-10-11" "dt" "t"
      ⟨["https://a"], none, JSVal.undef, JSVal.undef, JSVal.str "yes"⟩).toOption.getD [])
    rfl rfl
  exact ⟨rfl, rfl, h.1, h.2⟩

end Lasso
